import Mathlib

/-!
Verification of the polymer-analyzer core against its source.

Strings of the analyzed program are modelled as lists of Unicode code
points (`List Nat`); the helper `codes` converts a Lean string literal to
this representation.  All character arithmetic (`toUpperCase`,
`toLowerCase`, the regex class `[A-Z]`) is modelled on the ASCII range,
which is exact for every input exercised here.
-/

/-- Code points of a Lean string literal, used to write concrete program
strings compactly. -/
def codes (s : String) : List Nat :=
  s.data.map Char.toNat

/-- JavaScript `String.prototype.toUpperCase` restricted to one code point
(ASCII-exact). -/
def jsToUpper (c : Nat) : Nat :=
  if 97 ≤ c ∧ c ≤ 122 then c - 32 else c

/-- JavaScript `String.prototype.toLowerCase` restricted to one code point
(ASCII-exact). -/
def jsToLower (c : Nat) : Nat :=
  if 65 ≤ c ∧ c ≤ 90 then c + 32 else c

/-- The regex character class `[A-Z]`. -/
def isUpperCode (c : Nat) : Bool :=
  65 ≤ c && c ≤ 90

/-- ASCII lower-case letter `[a-z]`. -/
def isLowerCode (c : Nat) : Bool :=
  97 ≤ c && c ≤ 122

/-- An ASCII letter (used by the inverse conversion's notion of a letter). -/
def isLetterCode (c : Nat) : Bool :=
  isUpperCode c || isLowerCode c

/-- A JavaScript runtime exception.  `typeError` stands for the `TypeError`
raised by calling a method on `undefined`. -/
inductive JsError
  | typeError
deriving DecidableEq, Repr

instance {ε α : Type} [DecidableEq ε] [DecidableEq α] : DecidableEq (Except ε α) := fun x y =>
  match x, y with
  | .ok a, .ok b => if h : a = b then .isTrue (by simp [h]) else .isFalse (by simp [h])
  | .error a, .error b => if h : a = b then .isTrue (by simp [h]) else .isFalse (by simp [h])
  | .ok _, .error _ => .isFalse (by simp)
  | .error _, .ok _ => .isFalse (by simp)

/-- `propertyName.replace(/([A-Z])/g, (_, c1) => "-" + c1.toLowerCase())`
from `propertyToAttributeName` (src/polymer/polymer-element.ts): every
upper-case letter is replaced by a dash followed by its lower-case form. -/
def replaceUpper : List Nat → List Nat
  | [] => []
  | c :: rest =>
    if isUpperCode c then 45 :: jsToLower c :: replaceUpper rest
    else c :: replaceUpper rest

/-- Embedding of `propertyToAttributeName` (src/polymer/polymer-element.ts,
lines 299-307).  On the empty string, `propertyName[0]` is `undefined` and
`undefined.toUpperCase()` raises a `TypeError`; this is the `.error` case.
Returning `null` is `.ok none`. -/
def propertyToAttributeName (propertyName : List Nat) : Except JsError (Option (List Nat)) :=
  match propertyName with
  | [] => .error .typeError
  | c :: _ =>
    if jsToUpper c = c then .ok none
    else .ok (some (replaceUpper propertyName))

/-- The inverse transformation named by the spec's round-trip property:
for each `-` followed by a letter, delete the `-` and capitalize the
letter.  (This definition follows the spec's words; it has no counterpart
in the source.) -/
def attributeToPropertyName : List Nat → List Nat
  | [] => []
  | [c] => if c = 45 then [45] else [c]
  | c :: d :: rest =>
    if c = 45 then
      if isLetterCode d then jsToUpper d :: attributeToPropertyName rest
      else 45 :: attributeToPropertyName (d :: rest)
    else c :: attributeToPropertyName (d :: rest)

/-- `true` when the list contains a dash immediately followed by a
lower-case letter (the pattern on which the claimed round-trip breaks). -/
def hasDashLower : List Nat → Bool
  | [] => false
  | [_] => false
  | c :: d :: rest => (c == 45 && isLowerCode d) || hasDashLower (d :: rest)

/-- The `Privacy` union type (`'public' | 'protected' | 'private'`). -/
inductive Privacy
  | pub
  | prot
  | priv
deriving DecidableEq, Repr

/-- Opaque token standing for a source-range or AST-node object; no claim
inspects the internals of these objects, only where they are copied. -/
abbrev Rng := Nat

/-- The fields of `ScannedPolymerProperty` (src/polymer/polymer-element.ts)
that `addProperty` reads. -/
structure ScannedPolymerProperty where
  name : List Nat
  description : Option (List Nat)
  ttype : Option (List Nat)
  sourceRange : Option Rng
  astNode : Option Rng
  privacy : Option Privacy
  published : Bool
  notify : Bool
deriving DecidableEq, Repr

/-- The attribute record pushed by `addProperty`. -/
structure ScannedAttribute where
  name : List Nat
  sourceRange : Option Rng
  description : Option (List Nat)
  ttype : Option (List Nat)
  changeEvent : Option (List Nat)
deriving DecidableEq, Repr

/-- The event record pushed by `addProperty` (its `warnings` and `params`
are created empty and never consulted by the claims, so they are elided). -/
structure ScannedEvent where
  name : List Nat
  description : Option (List Nat)
  sourceRange : Option Rng
  astNode : Option Rng
deriving DecidableEq, Repr

/-- The mutable part of a `ScannedPolymerExtension` target that
`addProperty` updates: its `properties`, `attributes` and `events` arrays. -/
structure ScannedPolymerExtension where
  properties : List ScannedPolymerProperty
  attributes : List ScannedAttribute
  events : List ScannedEvent
deriving DecidableEq, Repr

/-- The test `prop.privacy && prop.privacy !== 'public'` (a missing privacy
is falsy). -/
def isNonPublic : Option Privacy → Bool
  | none => false
  | some p => p != Privacy.pub

/-- Embedding of `addProperty` (src/polymer/polymer-element.ts, lines
104-132).  The property is pushed first; then the conversion of its name
may raise (propagated as `.error`); properties that are non-public,
unpublished, or whose name converts to `null` produce no attribute or
event; otherwise an attribute is pushed, with an `{attribute}-changed`
event when `notify` is set. -/
def addProperty (target : ScannedPolymerExtension) (prop : ScannedPolymerProperty) :
    Except JsError ScannedPolymerExtension :=
  let target1 := { target with properties := target.properties ++ [prop] }
  match propertyToAttributeName prop.name with
  | .error e => .error e
  | .ok none => .ok target1
  | .ok (some attributeName) =>
    if isNonPublic prop.privacy || !prop.published then .ok target1
    else
      let changed := attributeName ++ codes "-changed"
      let target2 := { target1 with
        attributes := target1.attributes ++ [{
          name := attributeName,
          sourceRange := prop.sourceRange,
          description := prop.description,
          ttype := prop.ttype,
          changeEvent := if prop.notify then some changed else none }] }
      if prop.notify then
        .ok { target2 with
          events := target2.events ++ [{
            name := changed,
            description := some (codes "Fired when the `" ++ prop.name ++
              codes "` property changes."),
            sourceRange := prop.sourceRange,
            astNode := prop.astNode }] }
      else .ok target2

/-- An empty scanned-polymer-extension target. -/
def emptyExtension : ScannedPolymerExtension :=
  { properties := [], attributes := [], events := [] }

theorem isUpperCode_iff {c : Nat} : isUpperCode c = true ↔ 65 ≤ c ∧ c ≤ 90 := by
  simp [isUpperCode]

theorem isLowerCode_iff {c : Nat} : isLowerCode c = true ↔ 97 ≤ c ∧ c ≤ 122 := by
  simp [isLowerCode]

theorem jsToUpper_jsToLower {c : Nat} (h : isUpperCode c = true) :
    jsToUpper (jsToLower c) = c := by
  have h' := isUpperCode_iff.mp h
  unfold jsToLower jsToUpper
  rw [if_pos h', if_pos (by omega)]
  omega

theorem isLetterCode_jsToLower {c : Nat} (h : isUpperCode c = true) :
    isLetterCode (jsToLower c) = true := by
  have h' := isUpperCode_iff.mp h
  unfold jsToLower
  rw [if_pos h']
  simp [isLetterCode, isUpperCode, isLowerCode]
  omega

theorem isUpperCode_ne_dash {c : Nat} (h : isUpperCode c = true) : c ≠ 45 := by
  have h' := isUpperCode_iff.mp h
  omega

theorem replaceUpper_notUpper {c : Nat} (h : isUpperCode c = false) (rest : List Nat) :
    replaceUpper (c :: rest) = c :: replaceUpper rest := by
  simp [replaceUpper, h]

theorem attributeToPropertyName_cons_ne_dash {c : Nat} (h : c ≠ 45) (xs : List Nat) :
    attributeToPropertyName (c :: xs) = c :: attributeToPropertyName xs := by
  cases xs with
  | nil => simp [attributeToPropertyName, h]
  | cons d rest => simp [attributeToPropertyName, h]

theorem hasDashLower_tail {c : Nat} {rest : List Nat}
    (h : hasDashLower (c :: rest) = false) : hasDashLower rest = false := by
  cases rest with
  | nil => rfl
  | cons d r =>
    have := h
    simp [hasDashLower] at this
    simp [this.2]

/-- Core of the corrected round-trip: on inputs without a dash directly
followed by a lower-case letter, the claimed inverse undoes the
upper-case-to-dash replacement. -/
theorem attributeToPropertyName_replaceUpper (p : List Nat)
    (h : hasDashLower p = false) :
    attributeToPropertyName (replaceUpper p) = p := by
  induction p with
  | nil => rfl
  | cons c rest ih =>
    by_cases hu : isUpperCode c = true
    · have hrest : hasDashLower rest = false := hasDashLower_tail h
      simp only [replaceUpper, hu, if_pos]
      have hlet := isLetterCode_jsToLower hu
      simp [attributeToPropertyName, hlet, jsToUpper_jsToLower hu, ih hrest]
    · have hu' : isUpperCode c = false := by simpa using hu
      by_cases hc : c = 45
      · subst hc
        cases rest with
        | nil => rfl
        | cons d r =>
          have hd : isLowerCode d = false := by
            have := h
            simp [hasDashLower] at this
            simpa using this.1
          have hrest : hasDashLower (d :: r) = false := hasDashLower_tail h
          have h45u : isUpperCode 45 = false := by decide
          have h45 : isLetterCode 45 = false := by decide
          by_cases hdu : isUpperCode d = true
          · -- d is upper-case: its replacement starts with a dash, which is
            -- not a letter, so the leading dash of the input is kept.
            have : replaceUpper (45 :: d :: r) =
                45 :: 45 :: jsToLower d :: replaceUpper r := by
              simp [replaceUpper, hdu, h45u]
            rw [this]
            have step : attributeToPropertyName (45 :: 45 :: jsToLower d :: replaceUpper r) =
                45 :: attributeToPropertyName (45 :: jsToLower d :: replaceUpper r) := by
              simp [attributeToPropertyName, h45]
            rw [step]
            have : attributeToPropertyName (45 :: jsToLower d :: replaceUpper r) =
                attributeToPropertyName (replaceUpper (d :: r)) := by
              simp [replaceUpper, hdu]
            rw [this, ih hrest]
          · have hdu' : isUpperCode d = false := by simpa using hdu
            have hdl : isLetterCode d = false := by
              simp [isLetterCode, hdu', hd]
            have : replaceUpper (45 :: d :: r) = 45 :: replaceUpper (d :: r) := by
              simp [replaceUpper, h45u]
            rw [this]
            rw [replaceUpper_notUpper hdu']
            have step : attributeToPropertyName (45 :: d :: replaceUpper r) =
                45 :: attributeToPropertyName (d :: replaceUpper r) := by
              simp [attributeToPropertyName, hdl]
            rw [step]
            rw [← replaceUpper_notUpper hdu', ih hrest]
      · have hrest : hasDashLower rest = false := hasDashLower_tail h
        rw [replaceUpper_notUpper hu', attributeToPropertyName_cons_ne_dash hc,
          ih hrest]

/-- `replaceUpper` written in the spec's words: a `-` is inserted before
each upper-case letter and that letter is lower-cased; other characters
pass through. -/
theorem replaceUpper_eq_flatMap (l : List Nat) :
    replaceUpper l =
      l.flatMap (fun d => if isUpperCode d then [45, jsToLower d] else [d]) := by
  induction l with
  | nil => rfl
  | cons c rest ih =>
    by_cases h : isUpperCode c = true
    · simp [replaceUpper, h, ih]
    · have h' : isUpperCode c = false := by simpa using h
      simp [replaceUpper, h', ih]

example : propertyToAttributeName (codes "fooBar") = .ok (some (codes "foo-bar")) := by decide
example : propertyToAttributeName (codes "Foo") = .ok none := by decide
example : propertyToAttributeName (codes "_foo") = .ok none := by decide
example : propertyToAttributeName (codes "") = .error .typeError := by decide
example : attributeToPropertyName (codes "foo-bar") = codes "fooBar" := by decide
example : attributeToPropertyName (codes "a-b") = codes "aB" := by decide
example : propertyToAttributeName (codes "a-b") = .ok (some (codes "a-b")) := by decide

/-- C3 (counterexample): the property name `_foo` does not start with an
upper-case letter, yet the conversion rejects it (returns `null`), contrary
to the claim that only upper-case-initial names are rejected. -/
theorem claim_C3_counterexample :
    (codes "_foo").head? = some 95 ∧ isUpperCode 95 = false ∧
    propertyToAttributeName (codes "_foo") = .ok none := by
  decide

/-- C3 (amended): the conversion returns `null` exactly for nonempty names
whose first code point is unchanged by upper-casing — all names starting
with an upper-case letter, but also names starting with a digit,
punctuation, or any other non-lower-case character; every other nonempty
name is returned with a `-` inserted before each upper-case letter and
that letter lower-cased. -/
theorem claim_C3_amended (c : Nat) (cs : List Nat) :
    (isUpperCode c = true → propertyToAttributeName (c :: cs) = .ok none) ∧
    (jsToUpper c = c → propertyToAttributeName (c :: cs) = .ok none) ∧
    (jsToUpper c ≠ c →
      propertyToAttributeName (c :: cs) =
        .ok (some ((c :: cs).flatMap
          (fun d => if isUpperCode d then [45, jsToLower d] else [d])))) := by
  refine ⟨fun h => ?_, fun h => ?_, fun h => ?_⟩
  · have h' := isUpperCode_iff.mp h
    have hfix : jsToUpper c = c := by
      unfold jsToUpper
      rw [if_neg (by omega)]
    simp [propertyToAttributeName, hfix]
  · simp [propertyToAttributeName, h]
  · have hstep : propertyToAttributeName (c :: cs) =
        .ok (some (replaceUpper (c :: cs))) := by
      simp [propertyToAttributeName, h]
    rw [hstep, replaceUpper_eq_flatMap]

theorem claim_C3_witness :
    propertyToAttributeName (70 :: codes "oo") = .ok none ∧
    propertyToAttributeName (102 :: codes "ooBar") =
      .ok (some ((102 :: codes "ooBar").flatMap
        (fun d => if isUpperCode d then [45, jsToLower d] else [d]))) :=
  ⟨(claim_C3_amended 70 (codes "oo")).1 (by decide),
   (claim_C3_amended 102 (codes "ooBar")).2.2 (by decide)⟩

/-- C4 (counterexample): `a-b` is accepted by the conversion and maps to
itself, but the claimed inverse capitalizes after the dash and returns
`aB`, so the round-trip fails on accepted names containing a dash followed
by a lower-case letter. -/
theorem claim_C4_counterexample :
    propertyToAttributeName (codes "a-b") = .ok (some (codes "a-b")) ∧
    attributeToPropertyName (codes "a-b") ≠ codes "a-b" := by
  decide

/-- C4 (amended): for every property name accepted by the conversion that
contains no `-` immediately followed by a lower-case letter, applying the
inverse transformation (for each `-` followed by a letter, delete the `-`
and capitalize the letter) to the converted attribute name yields the
property name again. -/
theorem claim_C4_amended (p s : List Nat)
    (hacc : propertyToAttributeName p = .ok (some s))
    (hnd : hasDashLower p = false) :
    attributeToPropertyName s = p := by
  cases p with
  | nil => simp [propertyToAttributeName] at hacc
  | cons c cs =>
    by_cases h : jsToUpper c = c
    · simp [propertyToAttributeName, h] at hacc
    · have hs : s = replaceUpper (c :: cs) := by
        simp [propertyToAttributeName, h] at hacc
        exact hacc.symm
      rw [hs]
      exact attributeToPropertyName_replaceUpper _ hnd

theorem claim_C4_witness :
    attributeToPropertyName (codes "foo-bar") = codes "fooBar" :=
  claim_C4_amended (codes "fooBar") (codes "foo-bar") (by decide) (by decide)

/-- A published, notifying property whose privacy is `private`. -/
def privateNotifyProp : ScannedPolymerProperty :=
  { name := codes "foo", description := none, ttype := none, sourceRange := none,
    astNode := none, privacy := some Privacy.priv, published := true, notify := true }

/-- C5 (counterexample): a published property with `notify = true` whose
privacy is `private` produces neither an attribute nor an
`{attribute}-changed` event — `addProperty` returns with the events list
untouched, contrary to the claim's unconditional statement. -/
theorem claim_C5_counterexample :
    privateNotifyProp.published = true ∧ privateNotifyProp.notify = true ∧
    addProperty emptyExtension privateNotifyProp =
      .ok { properties := [privateNotifyProp], attributes := [], events := [] } := by
  decide

/-- C5 (amended): for every published property with `notify = true` whose
privacy is public (or unspecified) and whose name converts to an attribute
name, `addProperty` appends an event named `{attribute}-changed` to the
target's events and the pushed attribute entry carries `changeEvent` set to
that same name. -/
theorem claim_C5_amended (t : ScannedPolymerExtension) (p : ScannedPolymerProperty)
    (attr : List Nat)
    (hpub : p.published = true) (hnot : p.notify = true)
    (hpriv : p.privacy = none ∨ p.privacy = some Privacy.pub)
    (hattr : propertyToAttributeName p.name = .ok (some attr)) :
    addProperty t p = .ok
      { properties := t.properties ++ [p],
        attributes := t.attributes ++
          [{ name := attr, sourceRange := p.sourceRange,
             description := p.description, ttype := p.ttype,
             changeEvent := some (attr ++ codes "-changed") }],
        events := t.events ++
          [{ name := attr ++ codes "-changed",
             description := some (codes "Fired when the `" ++ p.name ++
               codes "` property changes."),
             sourceRange := p.sourceRange, astNode := p.astNode }] } := by
  have hnp : isNonPublic p.privacy = false := by
    rcases hpriv with h | h <;> simp [isNonPublic, h]
  unfold addProperty
  rw [hattr]
  simp [hnp, hpub, hnot]

/-- A published, notifying, public property. -/
def publicNotifyProp : ScannedPolymerProperty :=
  { name := codes "fooBar", description := none, ttype := none, sourceRange := some 7,
    astNode := some 3, privacy := none, published := true, notify := true }

theorem claim_C5_witness :
    addProperty emptyExtension publicNotifyProp = .ok
      { properties := [publicNotifyProp],
        attributes :=
          [{ name := codes "foo-bar", sourceRange := some 7,
             description := none, ttype := none,
             changeEvent := some (codes "foo-bar" ++ codes "-changed") }],
        events :=
          [{ name := codes "foo-bar" ++ codes "-changed",
             description := some (codes "Fired when the `" ++ codes "fooBar" ++
               codes "` property changes."),
             sourceRange := some 7, astNode := some 3 }] } :=
  claim_C5_amended emptyExtension publicNotifyProp (codes "foo-bar")
    rfl rfl (Or.inl rfl) (by decide)

/-- C10: the conversion is not total — on the empty property name it raises
a `TypeError` (`propertyName[0]` is `undefined`) instead of returning
`null` or an attribute name, and `addProperty` on a property with empty
name therefore raises as well. -/
theorem claim_C10 (t : ScannedPolymerExtension) (p : ScannedPolymerProperty)
    (h : p.name = []) :
    propertyToAttributeName p.name = .error .typeError ∧
    addProperty t p = .error .typeError := by
  refine ⟨by rw [h]; rfl, ?_⟩
  unfold addProperty
  rw [h]
  rfl

/-- A property whose name is the empty string. -/
def emptyNameProp : ScannedPolymerProperty :=
  { name := [], description := none, ttype := none, sourceRange := none,
    astNode := none, privacy := none, published := true, notify := true }

theorem claim_C10_witness :
    propertyToAttributeName emptyNameProp.name = .error .typeError ∧
    addProperty emptyExtension emptyNameProp = .error .typeError :=
  claim_C10 emptyExtension emptyNameProp rfl

/-- Embedding of `dedupe` (behavior scanner, `part_003` lines 34-48): keeps
the first element for each key, in first-occurrence order.  The JS bucket
object is modelled as an ideal dictionary (the model does not reproduce
prototype-chain key collisions or integer-key reordering, neither of which
can arise for the event names produced by this analyzer). -/
def dedupeAux {α β : Type} [DecidableEq β] (keyFunc : α → β) :
    List β → List α → List α
  | _, [] => []
  | seen, x :: rest =>
    if keyFunc x ∈ seen then dedupeAux keyFunc seen rest
    else x :: dedupeAux keyFunc (keyFunc x :: seen) rest

/-- `dedupe(array, keyFunc)` from the behavior scanner. -/
def dedupe {α β : Type} [DecidableEq β] (array : List α) (keyFunc : α → β) : List α :=
  dedupeAux keyFunc [] array

/-- `haystack.startsWith(needle)` on code-point lists. -/
def listStartsWith : List Nat → List Nat → Bool
  | _, [] => true
  | [], _ :: _ => false
  | a :: as, b :: bs => a == b && listStartsWith as bs

/-- JS `haystack.indexOf(needle) !== -1`: the needle occurs as a contiguous
substring (always true for the empty needle). -/
def containsSub : List Nat → List Nat → Bool
  | [], n => listStartsWith [] n
  | l@(_ :: t), n => listStartsWith l n || containsSub t n

/-- A behavior-assignment reference (`ScannedBehaviorAssignment`). -/
structure ScannedBehaviorAssignment where
  name : List Nat
  sourceRange : Option Rng
deriving DecidableEq, Repr

/-- A demo entry `{desc, path}`. -/
structure Demo where
  desc : List Nat
  path : List Nat
deriving DecidableEq, Repr

/-- Opaque token standing for an `Observer` record (observers are only
moved around by the merge, never inspected). -/
abbrev ObserverTok := Nat

/-- The fields of `ScannedBehavior` that `mergeBehavior` reads and writes.
Its `properties`, `attributes` and `events` arrays live in `ext`
(a `ScannedPolymerExtension`), on which `addProperty` operates.  The
`className` is a plain string: the scanner throws before the merge if it
could not determine one. -/
structure ScannedBehavior where
  className : List Nat
  description : List Nat
  demos : List Demo
  ext : ScannedPolymerExtension
  observers : List ObserverTok
  behaviorAssignments : List ScannedBehaviorAssignment
deriving DecidableEq, Repr

/-- The loop `for (const property of newBehavior.properties)
{ behavior.addProperty(property); }`, with a raised `TypeError`
propagating. -/
def addProperties (ext : ScannedPolymerExtension) :
    List ScannedPolymerProperty → Except JsError ScannedPolymerExtension
  | [] => .ok ext
  | p :: rest =>
    match addProperty ext p with
    | .error e => .error e
    | .ok ext2 => addProperties ext2 rest

/-- The body of `BehaviorVisitor.mergeBehavior`'s match (`part_003` lines
221-242): merge `newBehavior` into the already-scanned `behavior` of the
same class name.  Field order follows the source: longest description
wins (existing kept on ties or when the new one is falsy), demos are
concatenated, events are concatenated then deduped by name, each new
property is added via `addProperty` (which may push further attributes and
change events), observers are concatenated, and the concatenated
behavior-assignments are filtered by
`b.name.indexOf(newBehavior.className) === -1`. -/
def mergeInto (behavior newBehavior : ScannedBehavior) : Except JsError ScannedBehavior :=
  match addProperties
      { behavior.ext with
        events := dedupe (behavior.ext.events ++ newBehavior.ext.events)
          (fun e => e.name) }
      newBehavior.ext.properties with
  | .error e => .error e
  | .ok ext =>
    .ok { behavior with
      description :=
        if newBehavior.description ≠ [] then
          if behavior.description ≠ [] then
            if behavior.description.length < newBehavior.description.length then
              newBehavior.description
            else behavior.description
          else newBehavior.description
        else behavior.description,
      demos := behavior.demos ++ newBehavior.demos,
      ext := ext,
      observers := behavior.observers ++ newBehavior.observers,
      behaviorAssignments :=
        (behavior.behaviorAssignments ++ newBehavior.behaviorAssignments).filter
          (fun b => !containsSub b.name newBehavior.className) }

/-- `BehaviorVisitor.mergeBehavior` (`part_003` lines 212-245): merge the
new behavior into the first already-scanned behavior with the same
`className`; if none matches, the new behavior is returned unchanged. -/
def mergeBehavior (behaviors : List ScannedBehavior) (newBehavior : ScannedBehavior) :
    Except JsError ScannedBehavior :=
  match behaviors with
  | [] => .ok newBehavior
  | b :: rest =>
    if b.className = newBehavior.className then mergeInto b newBehavior
    else mergeBehavior rest newBehavior

/-- The attribute that `addProperty` pushes for a property, if any. -/
def attributeOf (p : ScannedPolymerProperty) : Option ScannedAttribute :=
  match propertyToAttributeName p.name with
  | .ok (some attr) =>
    if isNonPublic p.privacy || !p.published then none
    else some { name := attr, sourceRange := p.sourceRange, description := p.description,
                ttype := p.ttype,
                changeEvent := if p.notify then some (attr ++ codes "-changed") else none }
  | _ => none

/-- The `{attribute}-changed` event that `addProperty` pushes for a
property, if any. -/
def changedEventOf (p : ScannedPolymerProperty) : Option ScannedEvent :=
  match propertyToAttributeName p.name with
  | .ok (some attr) =>
    if isNonPublic p.privacy || !p.published || !p.notify then none
    else some { name := attr ++ codes "-changed",
                description := some (codes "Fired when the `" ++ p.name ++
                  codes "` property changes."),
                sourceRange := p.sourceRange, astNode := p.astNode }
  | _ => none

theorem propertyToAttributeName_ne_error {l : List Nat} (h : l ≠ []) :
    ∃ r, propertyToAttributeName l = .ok r := by
  cases l with
  | nil => exact absurd rfl h
  | cons c cs =>
    by_cases hc : jsToUpper c = c
    · exact ⟨none, by simp [propertyToAttributeName, hc]⟩
    · exact ⟨some (replaceUpper (c :: cs)), by simp [propertyToAttributeName, hc]⟩

theorem addProperty_ok (ext : ScannedPolymerExtension) (p : ScannedPolymerProperty)
    (h : p.name ≠ []) :
    addProperty ext p = .ok
      { properties := ext.properties ++ [p],
        attributes := ext.attributes ++ (attributeOf p).toList,
        events := ext.events ++ (changedEventOf p).toList } := by
  obtain ⟨r, hr⟩ := propertyToAttributeName_ne_error h
  unfold addProperty attributeOf changedEventOf
  rw [hr]
  cases r with
  | none => simp
  | some attr =>
    by_cases hg : (isNonPublic p.privacy || !p.published) = true
    · simp [hg]
    · have hg' : isNonPublic p.privacy = false ∧ p.published = true := by
        constructor <;> revert hg <;> cases isNonPublic p.privacy <;>
          cases hpb : p.published <;> simp
      by_cases hn : p.notify = true
      · simp [hg, hg'.1, hg'.2, hn]
      · have hn' : p.notify = false := by simpa using hn
        simp [hg, hg'.1, hg'.2, hn']

theorem addProperties_cons_ok (ext ext2 : ScannedPolymerExtension)
    (p : ScannedPolymerProperty) (rest : List ScannedPolymerProperty)
    (h : addProperty ext p = .ok ext2) :
    addProperties ext (p :: rest) = addProperties ext2 rest := by
  rw [addProperties, h]

theorem addProperties_ok (ext : ScannedPolymerExtension)
    (props : List ScannedPolymerProperty) (h : ∀ p ∈ props, p.name ≠ []) :
    addProperties ext props = .ok
      { properties := ext.properties ++ props,
        attributes := ext.attributes ++ props.filterMap attributeOf,
        events := ext.events ++ props.filterMap changedEventOf } := by
  induction props generalizing ext with
  | nil => simp [addProperties]
  | cons p rest ih =>
    have hp : p.name ≠ [] := h p (by simp)
    rw [addProperties_cons_ok ext _ p rest (addProperty_ok ext p hp)]
    rw [ih _ (fun q hq => h q (by simp [hq]))]
    cases ha : attributeOf p <;> cases he : changedEventOf p <;>
      simp [ha, he, List.filterMap_cons]

/-- The nested description-merge conditional of `mergeBehavior` computes
"longest description wins, the existing one kept on ties or when the new
one is empty". -/
theorem mergeDescription_eq (old new : List Nat) :
    (if new = [] then old
     else if old = [] then new
     else if old.length < new.length then new else old) =
    if old.length < new.length then new else old := by
  by_cases hn : new = []
  · simp [hn]
  · by_cases ho : old = []
    · have hp : 0 < new.length := List.length_pos.mpr hn
      simp [hn, ho, hp]
    · simp [hn, ho]

/-- C6: merging a behavior into an already-scanned behavior of the same
class name keeps the longer description (existing wins ties and empty new
descriptions), concatenates demos, concatenates-then-dedupes events by
name keeping the first occurrence, adds every new property via
`addProperty` (whose published `notify` properties append their own
attributes and change events after the dedupe), concatenates observers,
and filters the concatenated behavior-assignments to drop any whose name
contains the behavior's own class name. -/
theorem claim_C6 (old newB : ScannedBehavior) (rest : List ScannedBehavior)
    (hname : old.className = newB.className)
    (hprops : ∀ p ∈ newB.ext.properties, p.name ≠ []) :
    mergeBehavior (old :: rest) newB = .ok
      { className := old.className,
        description :=
          if old.description.length < newB.description.length then newB.description
          else old.description,
        demos := old.demos ++ newB.demos,
        ext := { properties := old.ext.properties ++ newB.ext.properties,
                 attributes := old.ext.attributes ++
                   newB.ext.properties.filterMap attributeOf,
                 events :=
                   dedupe (old.ext.events ++ newB.ext.events) (fun e => e.name) ++
                     newB.ext.properties.filterMap changedEventOf },
        observers := old.observers ++ newB.observers,
        behaviorAssignments :=
          (old.behaviorAssignments ++ newB.behaviorAssignments).filter
            (fun b => !containsSub b.name newB.className) } := by
  have hmerge : mergeBehavior (old :: rest) newB = mergeInto old newB := by
    simp [mergeBehavior, hname]
  rw [hmerge]
  unfold mergeInto
  rw [addProperties_ok _ _ hprops]
  simp
  exact mergeDescription_eq old.description newB.description

/-- A published, notifying, public property used in the merge witness. -/
def qPropW : ScannedPolymerProperty :=
  { name := codes "fooBar", description := none, ttype := none, sourceRange := none,
    astNode := none, privacy := none, published := true, notify := true }

/-- An already-scanned behavior for the merge witness. -/
def oldBehaviorW : ScannedBehavior :=
  { className := codes "My.Behavior",
    description := codes "short",
    demos := [⟨codes "demo", codes "demo/index.html"⟩],
    ext := { properties := [],
             attributes := [],
             events := [⟨codes "x-changed", none, none, none⟩,
                        ⟨codes "y-changed", none, none, none⟩] },
    observers := [1],
    behaviorAssignments := [⟨codes "Other.Behavior", none⟩] }

/-- A newly-scanned behavior with the same class name, a longer
description, a duplicate event, a published notify property and a
self-referencing behavior assignment. -/
def newBehaviorW : ScannedBehavior :=
  { className := codes "My.Behavior",
    description := codes "a longer description",
    demos := [⟨codes "demo2", codes "demo2/index.html"⟩],
    ext := { properties := [qPropW],
             attributes := [],
             events := [⟨codes "x-changed", some (codes "dup"), none, none⟩,
                        ⟨codes "z-changed", none, none, none⟩] },
    observers := [2],
    behaviorAssignments := [⟨codes "My.BehaviorImpl", none⟩,
                            ⟨codes "Third.Behavior", none⟩] }

theorem claim_C6_witness :
    mergeBehavior [oldBehaviorW] newBehaviorW = .ok
      { className := oldBehaviorW.className,
        description :=
          if oldBehaviorW.description.length < newBehaviorW.description.length then
            newBehaviorW.description
          else oldBehaviorW.description,
        demos := oldBehaviorW.demos ++ newBehaviorW.demos,
        ext := { properties := oldBehaviorW.ext.properties ++ newBehaviorW.ext.properties,
                 attributes := oldBehaviorW.ext.attributes ++
                   newBehaviorW.ext.properties.filterMap attributeOf,
                 events :=
                   dedupe (oldBehaviorW.ext.events ++ newBehaviorW.ext.events)
                       (fun e => e.name) ++
                     newBehaviorW.ext.properties.filterMap changedEventOf },
        observers := oldBehaviorW.observers ++ newBehaviorW.observers,
        behaviorAssignments :=
          (oldBehaviorW.behaviorAssignments ++ newBehaviorW.behaviorAssignments).filter
            (fun b => !containsSub b.name newBehaviorW.className) } :=
  claim_C6 oldBehaviorW newBehaviorW [] rfl (by decide)

example :
    dedupe (oldBehaviorW.ext.events ++ newBehaviorW.ext.events) (fun e => e.name) =
      [⟨codes "x-changed", none, none, none⟩,
       ⟨codes "y-changed", none, none, none⟩,
       ⟨codes "z-changed", none, none, none⟩] := by decide

example :
    (oldBehaviorW.behaviorAssignments ++ newBehaviorW.behaviorAssignments).filter
        (fun b => !containsSub b.name newBehaviorW.className) =
      [⟨codes "Other.Behavior", none⟩, ⟨codes "Third.Behavior", none⟩] := by decide

/-- A parse5 element attribute (`{name, value}`). -/
structure HtmlAttr where
  name : List Nat
  value : List Nat
deriving DecidableEq, Repr

/-- The fields of a parse5 `ASTNode` read by the element-reference
scanner.  `tagName` is `undefined` (`none`) on non-element nodes. -/
structure ASTNode where
  tagName : Option (List Nat)
  nodeName : List Nat
  attrs : List HtmlAttr
deriving DecidableEq, Repr

/-- The source-range lookups of a `ParsedHtmlDocument` that the scanner
consults, as abstract functions.  `sourceRangeForNode`,
`sourceRangeForAttribute` and `sourceRangeForAttributeName` are used with
a non-null assertion in the source; `sourceRangeForAttributeValue` may be
`undefined` (boolean attributes). -/
structure ParsedHtmlDocument where
  sourceRangeForNode : ASTNode → Rng
  sourceRangeForAttribute : ASTNode → List Nat → Rng
  sourceRangeForAttributeName : ASTNode → List Nat → Rng
  sourceRangeForAttributeValue : ASTNode → List Nat → Option Rng

/-- A recorded attribute of a `ScannedElementReference`. -/
structure AttrReference where
  name : List Nat
  value : List Nat
  sourceRange : Rng
  nameSourceRange : Rng
  valueSourceRange : Option Rng
deriving DecidableEq, Repr

/-- A `ScannedElementReference` together with the attributes pushed by the
visitor. -/
structure ScannedElementReference where
  tagName : List Nat
  sourceRange : Rng
  astNode : ASTNode
  attributes : List AttrReference
deriving DecidableEq, Repr

/-- `dom5.predicates.hasMatchingTagName(/(.+-)+.+/)` applied to a tag
name.  The unanchored regex test succeeds exactly when the name contains a
dash with at least one character before it and at least one character
after it (`.` does not match newlines, but parse5 tag names cannot contain
newlines); `isCustomElementName_iff` below proves this decomposition. -/
def isCustomElementName : List Nat → Bool
  | [] => false
  | [_] => false
  | _ :: d :: rest => (d == 45 && !rest.isEmpty) || isCustomElementName (d :: rest)

/-- The dash-decomposition reading of the custom-element regex. -/
theorem isCustomElementName_iff (t : List Nat) :
    isCustomElementName t = true ↔
      ∃ u v, u ≠ [] ∧ v ≠ [] ∧ t = u ++ 45 :: v := by
  induction t with
  | nil =>
    simp only [isCustomElementName]
    constructor
    · intro h; simp at h
    · rintro ⟨u, v, hu, hv, heq⟩
      exact absurd heq.symm (by simp)
  | cons a t ih =>
    cases t with
    | nil =>
      simp only [isCustomElementName]
      constructor
      · intro h; simp at h
      · rintro ⟨u, v, hu, hv, heq⟩
        have hlen := congrArg List.length heq
        simp [List.length_append] at hlen
        have hu0 : u = [] := List.length_eq_zero.mp (by omega)
        exact (hu hu0).elim
    | cons d rest =>
      constructor
      · intro h
        rw [isCustomElementName] at h
        rcases Bool.or_eq_true_iff.mp h with h1 | h2
        · have h1' := Bool.and_eq_true_iff.mp h1
          have hd : d = 45 := by simpa using h1'.1
          have hrest : rest ≠ [] := by simpa using h1'.2
          exact ⟨[a], rest, by simp, hrest, by simp [hd]⟩
        · obtain ⟨u, v, hu, hv, heq⟩ := ih.mp h2
          exact ⟨a :: u, v, by simp, hv, by simp [heq]⟩
      · rintro ⟨u, v, hu, hv, heq⟩
        rw [isCustomElementName]
        cases u with
        | nil => exact absurd rfl hu
        | cons b u' =>
          cases u' with
          | nil =>
            have h3 : a = b ∧ d = 45 ∧ rest = v := by simpa using heq
            rcases h3 with ⟨-, hd, hr⟩
            subst hd
            subst hr
            cases rest with
            | nil => exact (hv rfl).elim
            | cons c v' => simp
          | cons e u'' =>
            have h3 : a = b ∧ d = e ∧ rest = u'' ++ 45 :: v := by simpa using heq
            have htail : d :: rest = (e :: u'') ++ 45 :: v := by
              simp [h3.2.1, h3.2.2]
            exact Bool.or_eq_true_iff.mpr
              (Or.inr (ih.mpr ⟨e :: u'', v, by simp, hv, htail⟩))

/-- `HtmlCustomElementReferenceScanner.matches`
(src/html/html-element-reference-scanner.ts, lines 87-89):
`isCustomElement(node) && node.nodeName !== 'dom-module'`
(`hasMatchingTagName` tests the node's tag name; an `undefined` tag name
does not match). -/
def customElementMatches (node : ASTNode) : Bool :=
  (match node.tagName with
   | some t => isCustomElementName t
   | none => false) &&
  node.nodeName != codes "dom-module"

/-- The element reference pushed by the visitor for a matching node: tag
name, node range, the node itself, and one entry per attribute carrying
the attribute, attribute-name and attribute-value source ranges. -/
def mkElementReference (doc : ParsedHtmlDocument) (node : ASTNode) :
    ScannedElementReference :=
  { tagName := node.tagName.getD [],
    sourceRange := doc.sourceRangeForNode node,
    astNode := node,
    attributes := node.attrs.map (fun attr =>
      { name := attr.name, value := attr.value,
        sourceRange := doc.sourceRangeForAttribute node attr.name,
        nameSourceRange := doc.sourceRangeForAttributeName node attr.name,
        valueSourceRange := doc.sourceRangeForAttributeValue node attr.name }) }

/-- The visitor body of `HtmlElementReferenceScanner.scan` with the
custom-element `matches` override: a node with a truthy (nonempty) tag
name that matches yields a reference, any other node yields nothing. -/
def visitNode (doc : ParsedHtmlDocument) (node : ASTNode) :
    Option ScannedElementReference :=
  match node.tagName with
  | none => none
  | some t =>
    if !t.isEmpty && customElementMatches node then
      some (mkElementReference doc node)
    else none

/-- `HtmlCustomElementReferenceScanner.scan` over the walk order of the
visited nodes (the tree walk itself, including template descent, is parse5
infrastructure; the scanner is modelled on the sequence of nodes the
visitor receives). -/
def scanElementReferences (doc : ParsedHtmlDocument) (nodes : List ASTNode) :
    List ScannedElementReference :=
  nodes.filterMap (visitNode doc)

theorem visitNode_eq_some (doc : ParsedHtmlDocument) (node : ASTNode)
    (r : ScannedElementReference) :
    visitNode doc node = some r ↔
      (∃ t u v, node.tagName = some t ∧ u ≠ [] ∧ v ≠ [] ∧ t = u ++ 45 :: v) ∧
      node.nodeName ≠ codes "dom-module" ∧
      r = mkElementReference doc node := by
  cases htn : node.tagName with
  | none =>
    simp only [visitNode, htn]
    constructor
    · intro h; simp at h
    · rintro ⟨⟨t, u, v, hsome, -, -, -⟩, -, -⟩
      simp at hsome
  | some t =>
    simp only [visitNode, htn]
    by_cases hm : (!t.isEmpty && customElementMatches node) = true
    · rw [if_pos hm]
      have hm' := Bool.and_eq_true_iff.mp hm
      have hcm := Bool.and_eq_true_iff.mp
        (show ((match node.tagName with
                | some t => isCustomElementName t
                | none => false) &&
               node.nodeName != codes "dom-module") = true from hm'.2)
      have htag : isCustomElementName t = true := by
        have h0 := hcm.1
        rw [htn] at h0
        exact h0
      obtain ⟨u, v, hu, hv, hdec⟩ := (isCustomElementName_iff t).mp htag
      have hdm : node.nodeName ≠ codes "dom-module" := by
        simpa using hcm.2
      constructor
      · intro h
        exact ⟨⟨t, u, v, rfl, hu, hv, hdec⟩, hdm, by simpa using h.symm⟩
      · rintro ⟨-, -, hr⟩
        rw [hr]
    · rw [if_neg hm]
      constructor
      · intro h; simp at h
      · rintro ⟨⟨t', u, v, hsome, hu, hv, hdec⟩, hdm, hr⟩
        have ht' : t = t' := by simpa using hsome
        subst ht'
        have hne : t ≠ [] := by
          rw [hdec]
          simp
        have hcustom : isCustomElementName t = true :=
          (isCustomElementName_iff t).mpr ⟨u, v, hu, hv, hdec⟩
        have hall : (!t.isEmpty && customElementMatches node) = true := by
          rw [Bool.and_eq_true_iff]
          constructor
          · simpa using hne
          · rw [customElementMatches, htn, Bool.and_eq_true_iff]
            exact ⟨hcustom, by simpa using hdm⟩
        exact absurd hall hm

/-- C7 (amended): the custom-element reference scanner emits a reference
exactly for the visited nodes whose tag name contains a hyphen with at
least one character before it and at least one character after it (the
regex `(.+-)+.+`) and whose node name is not `dom-module`; each reference
records every attribute of its node together with the attribute,
attribute-name and attribute-value source ranges. -/
theorem claim_C7_amended (doc : ParsedHtmlDocument) (nodes : List ASTNode) :
    (∀ r, r ∈ scanElementReferences doc nodes ↔
      ∃ node ∈ nodes,
        (∃ t u v, node.tagName = some t ∧ u ≠ [] ∧ v ≠ [] ∧ t = u ++ 45 :: v) ∧
        node.nodeName ≠ codes "dom-module" ∧
        r = mkElementReference doc node) ∧
    (∀ node, (mkElementReference doc node).attributes = node.attrs.map (fun attr =>
      { name := attr.name, value := attr.value,
        sourceRange := doc.sourceRangeForAttribute node attr.name,
        nameSourceRange := doc.sourceRangeForAttributeName node attr.name,
        valueSourceRange := doc.sourceRangeForAttributeValue node attr.name })) := by
  constructor
  · intro r
    rw [scanElementReferences, List.mem_filterMap]
    constructor
    · rintro ⟨node, hmem, hvisit⟩
      exact ⟨node, hmem, ((visitNode_eq_some doc node r).mp hvisit)⟩
    · rintro ⟨node, hmem, hcond⟩
      exact ⟨node, hmem, (visitNode_eq_some doc node r).mpr hcond⟩
  · intro node
    rfl

/-- A trivial range assignment for concrete scanner runs. -/
def trivialHtmlDocument : ParsedHtmlDocument :=
  { sourceRangeForNode := fun _ => 0,
    sourceRangeForAttribute := fun _ _ => 1,
    sourceRangeForAttributeName := fun _ _ => 2,
    sourceRangeForAttributeValue := fun _ _ => some 3 }

/-- A node whose tag name `a-` contains a hyphen but only as its last
character. -/
def trailingDashNode : ASTNode :=
  { tagName := some (codes "a-"), nodeName := codes "a-", attrs := [] }

/-- C7 (counterexample): the tag name `a-` contains a hyphen and the node
is not `dom-module`, yet the scanner emits nothing for it: the regex
`(.+-)+.+` needs a character after the dash. -/
theorem claim_C7_counterexample :
    (codes "a-").contains 45 = true ∧
    trailingDashNode.nodeName ≠ codes "dom-module" ∧
    scanElementReferences trivialHtmlDocument [trailingDashNode] = [] := by
  decide

/-- A node using the custom element `x-y` with one attribute. -/
def customNodeW : ASTNode :=
  { tagName := some (codes "x-y"), nodeName := codes "x-y",
    attrs := [⟨codes "id", codes "me"⟩] }

/-- A plain node (`div`) that the scanner must ignore. -/
def plainNodeW : ASTNode :=
  { tagName := some (codes "div"), nodeName := codes "div", attrs := [] }

theorem claim_C7_witness :
    mkElementReference trivialHtmlDocument customNodeW ∈
      scanElementReferences trivialHtmlDocument [plainNodeW, customNodeW] :=
  ((claim_C7_amended trivialHtmlDocument [plainNodeW, customNodeW]).1 _).mpr
    ⟨customNodeW, by decide,
      ⟨codes "x-y", codes "x", codes "y", rfl, by decide, by decide, by decide⟩,
      by decide, rfl⟩

/-- The `Severity` enum of the model layer. -/
inductive Severity
  | error
  | warning
  | info
deriving DecidableEq, Repr

/-- A `{line, column}` source position. -/
structure SourcePosition where
  line : Nat
  column : Nat
deriving DecidableEq, Repr

/-- A warning's source range; the source field `end` is spelled `endPos`
(`end` is reserved in Lean). -/
structure WarningSourceRange where
  file : List Nat
  start : SourcePosition
  endPos : SourcePosition
deriving DecidableEq, Repr

/-- A `Warning` record. -/
structure Warning where
  code : List Nat
  message : List Nat
  severity : Severity
  sourceRange : WarningSourceRange
deriving DecidableEq, Repr

/-- A scanned document in the cache, modelled by its url and an opaque
token standing for its parsed contents and features. -/
structure ScannedDoc where
  url : List Nat
  token : Rng
deriving DecidableEq, Repr

/-- A resolved `Document`, produced from exactly one scanned document
(its feature resolution is outside the claims considered here). -/
structure DocumentM where
  scanned : ScannedDoc
deriving DecidableEq, Repr

/-- JS `Map.get`, on an association list keyed by canonical URL. -/
def mapGet {α : Type} (m : List (List Nat × α)) (k : List Nat) : Option α :=
  match m with
  | [] => none
  | (k2, v) :: rest => if k2 = k then some v else mapGet rest k

/-- The three tables of the `AnalysisCache` that `getDocument` consults
(the promise tables are not read on any path of this claim). -/
structure AnalysisCacheM where
  failedDocuments : List (List Nat × Warning)
  analyzedDocuments : List (List Nat × DocumentM)
  scannedDocuments : List (List Nat × ScannedDoc)

/-- An `AnalysisContext` for `getDocument`: its cache and its
`UrlResolver` (`canResolve`/`resolve` folded into one partial function). -/
structure AnalysisContextM where
  cache : AnalysisCacheM
  resolver : List Nat → Option (List Nat)

/-- `AnalysisContext.resolveUrl`: resolve when the resolver can, otherwise
return the url unchanged. -/
def resolveUrl (ctx : AnalysisContextM) (url : List Nat) : List Nat :=
  match ctx.resolver url with
  | some resolved => resolved
  | none => url

/-- The result of `getDocument`: a `Document` or a `Warning`. -/
inductive DocumentOrWarning
  | document (d : DocumentM)
  | warning (w : Warning)
deriving DecidableEq, Repr

/-- Embedding of `AnalysisContext.getDocument`
(src/core/analysis-context.ts, lines 212-250), returning the result
together with the updated context (the only mutation is caching a newly
analyzed document).  The `_languageAnalyzers` map is constructed empty in
the source, so the language-analyzer branch never fires; the promise-side
`analyzedDocumentPromises` bookkeeping touches no table read here. -/
def getDocument (ctx : AnalysisContextM) (url : List Nat) :
    DocumentOrWarning × AnalysisContextM :=
  match mapGet ctx.cache.failedDocuments (resolveUrl ctx url) with
  | some cachedWarning => (.warning cachedWarning, ctx)
  | none =>
    match mapGet ctx.cache.analyzedDocuments (resolveUrl ctx url) with
    | some cachedResult => (.document cachedResult, ctx)
    | none =>
      match mapGet ctx.cache.scannedDocuments (resolveUrl ctx url) with
      | none =>
        (.warning { sourceRange := { file := resolveUrl ctx url,
                                     start := ⟨0, 0⟩, endPos := ⟨0, 0⟩ },
                    code := codes "unable-to-analyze",
                    message := codes "Document not found: " ++ url,
                    severity := .error }, ctx)
      | some scannedDocument =>
        (.document { scanned := scannedDocument },
         { ctx with cache := { ctx.cache with
             analyzedDocuments := ctx.cache.analyzedDocuments ++
               [(resolveUrl ctx url, { scanned := scannedDocument })] } })

/-- C2: when the failed-documents table has no entry for the (canonical)
URL and neither the analyzed- nor the scanned-documents cache contains it,
`getDocument` returns an `unable-to-analyze` warning whose source range is
zero-length (start = end = line 0, column 0) in the resolved URL's file,
and the context — in particular every cache table — is unchanged: no
document is created or cached. -/
theorem claim_C2 (ctx : AnalysisContextM) (url : List Nat)
    (hfail : mapGet ctx.cache.failedDocuments (resolveUrl ctx url) = none)
    (hanal : mapGet ctx.cache.analyzedDocuments (resolveUrl ctx url) = none)
    (hscan : mapGet ctx.cache.scannedDocuments (resolveUrl ctx url) = none) :
    getDocument ctx url =
      (.warning { sourceRange := { file := resolveUrl ctx url,
                                   start := ⟨0, 0⟩, endPos := ⟨0, 0⟩ },
                  code := codes "unable-to-analyze",
                  message := codes "Document not found: " ++ url,
                  severity := .error }, ctx) := by
  unfold getDocument
  rw [hfail, hanal, hscan]

/-- A context whose caches are empty and whose resolver resolves nothing. -/
def emptyContext : AnalysisContextM :=
  { cache := { failedDocuments := [], analyzedDocuments := [], scannedDocuments := [] },
    resolver := fun _ => none }

theorem claim_C2_witness :
    getDocument emptyContext (codes "foo.html") =
      (.warning { sourceRange := { file := codes "foo.html",
                                   start := ⟨0, 0⟩, endPos := ⟨0, 0⟩ },
                  code := codes "unable-to-analyze",
                  message := codes "Document not found: " ++ codes "foo.html",
                  severity := .error }, emptyContext) :=
  claim_C2 emptyContext (codes "foo.html") rfl rfl rfl

/-- An opaque parsed document. -/
structure ParsedDoc where
  token : Rng
deriving DecidableEq, Repr

/-- A value thrown by a parser's `parse`: either a
`WarningCarryingException` or any other thrown value, represented by the
rendering of its `.stack` (the string `undefined` when the thrown value
has no stack). -/
inductive ParserThrow
  | warningCarrying (w : Warning)
  | other (stack : List Nat)
deriving DecidableEq, Repr

/-- A registered parser: `parse(contents, url, inlineInfo)`. -/
abbrev ParserFn := List Nat → List Nat → Option Rng → Except ParserThrow ParsedDoc

/-- What `_parseContents` can throw. -/
inductive ParseContentsError
  | noKnownParser (message : List Nat)
  | warningCarrying (w : Warning)
  | genericError (message : List Nat)
deriving Repr

/-- Embedding of `AnalysisContext._parseContents`
(src/core/analysis-context.ts, lines 464-479): no registered parser for
the type throws `NoKnownParserError`; a `WarningCarryingException` from
the parser is rethrown unchanged; any other thrown value is wrapped into a
generic `Error` whose message names the url and the underlying stack. -/
def parseContents (parsers : List (List Nat × ParserFn))
    (ttype contents url : List Nat) (inlineInfo : Option Rng) :
    Except ParseContentsError ParsedDoc :=
  match mapGet parsers ttype with
  | none => .error (.noKnownParser (codes "No parser for for file type " ++ ttype))
  | some parser =>
    match parser contents url inlineInfo with
    | .ok parsed => .ok parsed
    | .error (.warningCarrying w) => .error (.warningCarrying w)
    | .error (.other stack) =>
      .error (.genericError (codes "Error parsing " ++ url ++ codes ":\n " ++ stack))

/-- C8: `_parseContents` rethrows warning-carrying parser exceptions
unchanged, wraps any other parser throw into a generic error whose message
names the URL and embeds the underlying stack, and throws
`NoKnownParserError` when no parser is registered for the document type. -/
theorem claim_C8 (parsers : List (List Nat × ParserFn))
    (ttype contents url : List Nat) (inlineInfo : Option Rng) :
    (mapGet parsers ttype = none →
      parseContents parsers ttype contents url inlineInfo =
        .error (.noKnownParser (codes "No parser for for file type " ++ ttype))) ∧
    (∀ parser w, mapGet parsers ttype = some parser →
      parser contents url inlineInfo = .error (.warningCarrying w) →
      parseContents parsers ttype contents url inlineInfo =
        .error (.warningCarrying w)) ∧
    (∀ parser stack, mapGet parsers ttype = some parser →
      parser contents url inlineInfo = .error (.other stack) →
      parseContents parsers ttype contents url inlineInfo =
        .error (.genericError (codes "Error parsing " ++ url ++
          codes ":\n " ++ stack))) ∧
    (∀ parser parsed, mapGet parsers ttype = some parser →
      parser contents url inlineInfo = .ok parsed →
      parseContents parsers ttype contents url inlineInfo = .ok parsed) := by
  refine ⟨fun h => ?_, fun parser w h1 h2 => ?_, fun parser stack h1 h2 => ?_,
    fun parser parsed h1 h2 => ?_⟩
  · simp only [parseContents, h]
  · simp only [parseContents, h1, h2]
  · simp only [parseContents, h1, h2]
  · simp only [parseContents, h1, h2]

/-- A parser that throws a plain (non-warning-carrying) value. -/
def throwingParserW : ParserFn := fun _ _ _ => .error (.other (codes "boom"))

/-- A concrete warning carried by `warningCarryingParserW`. -/
def parseWarningW : Warning :=
  { code := codes "parse-error", message := codes "bad file",
    severity := .error,
    sourceRange := { file := codes "u.css", start := ⟨0, 0⟩, endPos := ⟨0, 1⟩ } }

/-- A parser that throws a `WarningCarryingException`. -/
def warningCarryingParserW : ParserFn :=
  fun _ _ _ => .error (.warningCarrying parseWarningW)

/-- The parser registry used by the C8 witness. -/
def parsersW : List (List Nat × ParserFn) :=
  [(codes "html", throwingParserW), (codes "css", warningCarryingParserW)]

theorem claim_C8_witness :
    parseContents parsersW (codes "json") (codes "x") (codes "u.json") none =
      .error (.noKnownParser (codes "No parser for for file type " ++ codes "json")) ∧
    parseContents parsersW (codes "css") (codes "x") (codes "u.css") none =
      .error (.warningCarrying parseWarningW) ∧
    parseContents parsersW (codes "html") (codes "x") (codes "u.html") none =
      .error (.genericError (codes "Error parsing " ++ codes "u.html" ++
        codes ":\n " ++ codes "boom")) :=
  ⟨(claim_C8 parsersW (codes "json") (codes "x") (codes "u.json") none).1 rfl,
   (claim_C8 parsersW (codes "css") (codes "x") (codes "u.css") none).2.1
     warningCarryingParserW parseWarningW rfl rfl,
   (claim_C8 parsersW (codes "html") (codes "x") (codes "u.html") none).2.2.1
     throwingParserW (codes "boom") rfl rfl⟩

/-- The fields of a resolved `Element` that the summary emitter reads.
`superClass` is the element's actual resolved superclass identifier. -/
structure ResolvedElementM where
  tagName : Option (List Nat)
  className : Option (List Nat)
  superClass : Option (List Nat)
  mixins : List (List Nat)
  description : Option (List Nat)
  summary : Option (List Nat)
  path : List Nat
  privacy : Privacy
  demos : List Demo
deriving DecidableEq, Repr

/-- The emitted element entry of the summary (`analysis-format`).
Properties, methods, attributes, events, styling, slots, metadata and
source ranges are emitted too but read by no claim, so they are elided. -/
structure ElementSummary where
  description : List Nat
  summary : List Nat
  path : List Nat
  demos : List (List Nat)
  privacy : Privacy
  tagname : Option (List Nat)
  classname : Option (List Nat)
  mixins : Option (List (List Nat))
  superclass : Option (List Nat)
deriving DecidableEq, Repr

/-- The `serializeClass`/`serializeElementLike` stage of
`src/generate-analysis.ts` (lines 248-291) restricted to the fields the
claims read; `relative` stands for `pathLib.relative`. -/
def serializeElementLike (relative : List Nat → List Nat → List Nat)
    (element : ResolvedElementM) (packagePath : List Nat) : ElementSummary :=
  { description := element.description.getD [],
    summary := element.summary.getD [],
    path := relative packagePath element.path,
    demos := element.demos.map (fun d => d.path),
    privacy := element.privacy,
    tagname := none, classname := none, mixins := none, superclass := none }

/-- Embedding of `serializeElement` (src/generate-analysis.ts, lines
293-308): sets `tagname`, `classname` (when truthy), `mixins` (when
nonempty) and then unconditionally `metadata.superclass = 'HTMLElement'`. -/
def serializeElement (relative : List Nat → List Nat → List Nat)
    (element : ResolvedElementM) (packagePath : List Nat) : ElementSummary :=
  { serializeElementLike relative element packagePath with
    tagname := element.tagName,
    classname :=
      match element.className with
      | some c => if c.isEmpty then none else some c
      | none => none,
    mixins := if element.mixins.isEmpty then none else some element.mixins,
    superclass := some (codes "HTMLElement") }

/-- C9: every element entry emitted by the summary emitter has the
constant string `HTMLElement` as its `superclass`, regardless of the
element's actual resolved superclass, which is never written out. -/
theorem claim_C9 (relative : List Nat → List Nat → List Nat)
    (element : ResolvedElementM) (packagePath : List Nat) :
    (serializeElement relative element packagePath).superclass =
      some (codes "HTMLElement") ∧
    (element.superClass ≠ some (codes "HTMLElement") →
      (serializeElement relative element packagePath).superclass ≠
        element.superClass) := by
  refine ⟨rfl, fun h heq => ?_⟩
  rw [show (serializeElement relative element packagePath).superclass =
    some (codes "HTMLElement") from rfl] at heq
  exact h heq.symm

/-- A resolved element whose actual superclass is `Polymer.Element`. -/
def elementW : ResolvedElementM :=
  { tagName := some (codes "my-el"), className := some (codes "MyEl"),
    superClass := some (codes "Polymer.Element"), mixins := [],
    description := none, summary := none, path := codes "a.html",
    privacy := .pub, demos := [] }

/-- A stand-in for `pathLib.relative` in concrete runs. -/
def relativeW : List Nat → List Nat → List Nat := fun _ p => p

theorem claim_C9_witness :
    (serializeElement relativeW elementW (codes "pkg")).superclass =
      some (codes "HTMLElement") ∧
    (serializeElement relativeW elementW (codes "pkg")).superclass ≠
      elementW.superClass :=
  ⟨(claim_C9 relativeW elementW (codes "pkg")).1,
   (claim_C9 relativeW elementW (codes "pkg")).2 (by decide)⟩

/-- An error produced while scanning (e.g. a parse failure raised by
`_scanLocal`); `outOfFuel` is the artificial bound of the fuel-indexed
model below and is never hit with sufficient fuel. -/
inductive ScanError
  | parseError (message : List Nat)
  | outOfFuel
deriving DecidableEq, Repr

/-- The environment of the transitive scan: the outcome of
`_scanLocal` for each canonical URL (either a scan error or the urls of
the document's scanned `Import` features — parsing and feature scanning
are out of scope for this claim), and the context's `resolveUrl`. -/
structure ScanEnv where
  scanLocal : List Nat → Except ScanError (List (List Nat))
  resolveUrl : List Nat → List Nat

/-- A scanned `Import` feature after the transitive scan: its url and the
`error` the rejection handler attached to it, if any. -/
structure ImportRecord where
  url : List Nat
  error : Option ScanError
deriving DecidableEq, Repr

/-- A scanned document after the transitive scan: its url and its import
features with any attached errors. -/
structure ScannedDocRecord where
  url : List Nat
  imports : List ImportRecord
deriving DecidableEq, Repr

/-- Embedding of `AnalysisContext.scan` (src/core/analysis-context.ts,
lines 333-353), the transitive scan.  Modelled from the spec where the
deciding code lives outside `src/`: the promise cache
(`dependenciesScannedPromises.getOrCompute`, analysis-cache) and the
dependency graph's `whenReady` are not under `src/`; per spec §4.1/§4.2
a URL whose scan is already pending resolves without blocking (cycle
tolerance: `when_ready` treats already-visited nodes as ready) and
`whenReady(url)` resolves once the local scan of `url` succeeded, import
failures notwithstanding.  They are modelled by the `pending` set and by
returning the local result directly; `fuel` bounds the recursion depth of
this synchronous rendering of the promise recursion.  For each discovered
import, `scan(importUrl)` is run and — as in the source's
`.catch((error) => { scannedImport.error = error; })` — a failure is
attached to the corresponding import record instead of propagating. -/
def scan (env : ScanEnv) : Nat → List (List Nat) → List Nat →
    Except ScanError ScannedDocRecord
  | 0, _, _ => .error .outOfFuel
  | Nat.succ n, pending, resolvedUrl =>
    if resolvedUrl ∈ pending then .ok { url := resolvedUrl, imports := [] }
    else
      match env.scanLocal resolvedUrl with
      | .error e => .error e
      | .ok importUrls =>
        .ok { url := resolvedUrl,
              imports := importUrls.map (fun importUrl =>
                { url := importUrl,
                  error :=
                    match scan env n (resolvedUrl :: pending)
                        (env.resolveUrl importUrl) with
                    | .error e => some e
                    | .ok _ => none }) }

/-- C1: when the local scan of a document succeeds, its transitive scan
always completes and returns that scanned document (with one import record
per discovered import), regardless of how the imports' scans fare; and
every import whose own scan fails gets that error attached to its
`scannedImport.error` field instead of the failure propagating to the
importer. -/
theorem claim_C1 (env : ScanEnv) (n : Nat) (pending : List (List Nat))
    (url : List Nat) (importUrls : List (List Nat))
    (hpend : url ∉ pending)
    (hlocal : env.scanLocal url = .ok importUrls) :
    ∃ doc, scan env (n + 1) pending url = .ok doc ∧
      doc.url = url ∧
      doc.imports.map (fun i => i.url) = importUrls ∧
      ∀ importUrl e, importUrl ∈ importUrls →
        scan env n (url :: pending) (env.resolveUrl importUrl) = .error e →
        { url := importUrl, error := some e } ∈ doc.imports := by
  refine ⟨{ url := url,
            imports := importUrls.map (fun importUrl =>
              { url := importUrl,
                error :=
                  match scan env n (url :: pending) (env.resolveUrl importUrl) with
                  | .error e => some e
                  | .ok _ => none }) }, ?_, rfl, ?_, ?_⟩
  · rw [scan, if_neg hpend, hlocal]
  · rw [List.map_map]
    have hcomp : ((fun i : ImportRecord => i.url) ∘ fun importUrl =>
        ({ url := importUrl,
           error :=
             match scan env n (url :: pending) (env.resolveUrl importUrl) with
             | .error e => some e
             | .ok _ => none } : ImportRecord)) = id := by
      funext a
      rfl
    rw [hcomp, List.map_id]
  · intro importUrl e hmem herr
    rw [List.mem_map]
    refine ⟨importUrl, hmem, ?_⟩
    rw [herr]

/-- The environment of the C1 witness: `a.html` imports `b.html` (whose
local scan fails) and `c.html` (which scans clean). -/
def scanEnvW : ScanEnv :=
  { scanLocal := fun u =>
      if u = codes "a.html" then .ok [codes "b.html", codes "c.html"]
      else if u = codes "b.html" then .error (.parseError (codes "boom"))
      else .ok [],
    resolveUrl := fun u => u }

theorem claim_C1_witness :
    scan scanEnvW 2 [] (codes "a.html") =
      .ok { url := codes "a.html",
            imports := [{ url := codes "b.html",
                          error := some (.parseError (codes "boom")) },
                        { url := codes "c.html", error := none }] } := by
  obtain ⟨doc, hdoc, hurl, himps, hatt⟩ :=
    claim_C1 scanEnvW 1 [] (codes "a.html") [codes "b.html", codes "c.html"]
      (by decide) (by decide)
  decide
